import Mathlib

/-!
Shallow embedding of the QuicknodeRpc n8n node
(src/nodes/QuicknodeRpc/QuicknodeRpc.node.ts) together with the pieces of the
JavaScript runtime its execute path relies on (string regex tests, parseInt,
Number/BigInt conversions, toFixed).  Machine doubles produced by parseInt and
by Number(bigint) are modelled exactly as integers rounded to 53 significant
bits (IEEE round-to-nearest, ties to even), with overflow to Infinity at 2^1024.
-/

namespace QuicknodeRpc

/-- JavaScript values as they occur in the node's data flow: JSON values
plus the extra JavaScript artefacts `undefined`, `NaN` and signed infinity
that arise from missing object fields and from numeric conversions. -/
inductive Json where
  | null
  | undefined
  | bool (b : Bool)
  | num (n : Int)
  | nan
  | inf (neg : Bool)
  | str (s : String)
  | arr (elems : List Json)
  | obj (fields : List (String × Json))

/-- JavaScript truthiness of a value (`if (v)`): `undefined`, `null`, `false`,
`0`, `NaN` and the empty string are falsy; any array or object is truthy. -/
def Json.truthy : Json → Bool
  | .null => false
  | .undefined => false
  | .bool b => b
  | .num n => n != 0
  | .nan => false
  | .inf _ => true
  | .str s => s != ""
  | .arr _ => true
  | .obj _ => true

/-- Property access `v[k]` on a JavaScript value: the first binding of the key
in an object, `undefined` otherwise (missing key or non-object receiver). -/
def Json.getField (v : Json) (k : String) : Json :=
  match v with
  | .obj fields =>
    match fields.find? (fun f => f.1 == k) with
    | some f => f.2
    | none => .undefined
  | _ => .undefined

/-- Decimal digits of a natural number, most significant first.  Fuel-driven
(`fuel ≥ n` always suffices); written with a bare `Nat.rec` so that kernel
reduction peels only as many fuel layers as there are digits. -/
def decChars (fuel : Nat) : Nat → List Char :=
  Nat.rec (motive := fun _ => Nat → List Char) (fun _ => [])
    (fun _ ih n => if n = 0 then [] else ih (n / 10) ++ [Char.ofNat (48 + n % 10)]) fuel

/-- Decimal string of a natural number, as produced by JavaScript
`Number.prototype.toString()` / `BigInt.prototype.toString()` on
a nonnegative integer value. -/
def decOfNat (n : Nat) : String :=
  if n = 0 then "0" else String.mk (decChars n n)

/-- Lowercase hexadecimal digit for a value below 16. -/
def hexDigitChar (d : Nat) : Char :=
  if d < 10 then Char.ofNat (48 + d) else Char.ofNat (87 + d)

/-- Hexadecimal digits of a natural number, most significant first,
lowercase; fuel-driven like `decChars`. -/
def hexChars (fuel : Nat) : Nat → List Char :=
  Nat.rec (motive := fun _ => Nat → List Char) (fun _ => [])
    (fun _ ih n => if n = 0 then [] else ih (n / 16) ++ [hexDigitChar (n % 16)]) fuel

/-- Lowercase hexadecimal string of a natural number with no leading zeros,
as produced by JavaScript `Number.prototype.toString(16)` on a nonnegative
integer value. -/
def hexOfNat (n : Nat) : String :=
  if n = 0 then "0" else String.mk (hexChars n n)

/-- Numeric value of a lowercase hexadecimal digit character. -/
def hexVal (c : Char) : Nat :=
  if c.toNat ≤ 57 then c.toNat - 48 else c.toNat - 87

/-- Value of a list of decimal digit characters, most significant first. -/
def natOfDecChars (cs : List Char) : Nat :=
  cs.foldl (fun a c => a * 10 + (c.toNat - 48)) 0

/-- Value of a list of (lowercase) hexadecimal digit characters,
most significant first. -/
def natOfHexChars (cs : List Char) : Nat :=
  cs.foldl (fun a c => a * 16 + hexVal c) 0

/-- Number of binary digits of a natural number below 256 (0 for 0). -/
def bitlen8 (n : Nat) : Nat :=
  if n = 0 then 0
  else if n < 2 then 1 else if n < 4 then 2 else if n < 8 then 3
  else if n < 16 then 4 else if n < 32 then 5 else if n < 64 then 6
  else if n < 128 then 7 else 8

/-- Number of binary digits of a natural number (0 for 0); fuel-driven like
`decChars`, peeling eight bits per step so evaluation stays shallow. -/
def bitlenAux (fuel : Nat) : Nat → Nat :=
  Nat.rec (motive := fun _ => Nat → Nat) (fun _ => 0)
    (fun _ ih n => if n < 256 then bitlen8 n else ih (n / 256) + 8) fuel

/-- Number of binary digits of a natural number (`bitlen 0 = 0`). -/
def bitlen (n : Nat) : Nat := bitlenAux n n

/-- Round a natural number to 53 significant binary digits,
IEEE round-to-nearest with ties to even: the exact value of the IEEE-754
double closest to `n` (ignoring overflow, handled by `roundDouble`). -/
def roundNat53 (n : Nat) : Nat :=
  let e := bitlen (n / 2 ^ 53)
  if e = 0 then n
  else
    let p := 2 ^ e
    let q := n / p
    let r := n % p
    let h := p / 2
    (if h < r ∨ (r = h ∧ q % 2 = 1) then q + 1 else q) * p

/-- The IEEE-754 double nearest to a natural number: its exact integer value,
or `none` for overflow to `Infinity` (rounded value at or above 2^1024,
written `(2 ^ 256) ^ 4` so that evaluators compute the literal). -/
def roundDouble (n : Nat) : Option Nat :=
  let r := roundNat53 n
  if (2 ^ 256) ^ 4 ≤ r then none else some r

/-- JavaScript whitespace, as skipped by `parseInt` and `StringToBigInt`
(the common ASCII cases; exotic Unicode space code points never occur in the
strings handled by this node). -/
def isJsWs (c : Char) : Bool :=
  c == ' ' || c == '\t' || c == '\n' || c == '\r' || c == '\x0b' || c == '\x0c'

/-- Hexadecimal digit character, either case (`[a-fA-F0-9]`). -/
def isHexDigitChar (c : Char) : Bool :=
  c.isDigit || ('a' ≤ c && c ≤ 'f') || ('A' ≤ c && c ≤ 'F')

/-- Result of a JavaScript number-producing conversion: `NaN`, a signed
infinity, or a finite value.  The conversions modelled here (`parseInt`,
`Number` of a bigint) only produce integer-valued doubles, carried exactly. -/
inductive JsNum where
  | nan
  | posInf
  | negInf
  | fin (v : Int)

/-- Value of a list of octal digit characters, most significant first. -/
def natOfOctChars (cs : List Char) : Nat :=
  cs.foldl (fun a c => a * 8 + (c.toNat - 48)) 0

/-- Value of a list of binary digit characters, most significant first. -/
def natOfBinChars (cs : List Char) : Nat :=
  cs.foldl (fun a c => a * 2 + (c.toNat - 48)) 0

/-- JavaScript `parseInt(s, 10)`: skip leading whitespace, optional sign,
longest prefix of decimal digits (trailing garbage ignored); `NaN` when that
prefix is empty; the mathematical value is rounded to the nearest double. -/
def jsParseIntDec (s : String) : JsNum :=
  let cs := s.data.dropWhile isJsWs
  let neg := cs.head? == some '-'
  let cs2 := if cs.head? == some '-' || cs.head? == some '+' then cs.tail else cs
  let ds := cs2.takeWhile Char.isDigit
  if ds.isEmpty then .nan
  else
    match roundDouble (natOfDecChars ds) with
    | none => if neg then .negInf else .posInf
    | some m => .fin (if neg then -(m : Int) else (m : Int))

/-- JavaScript `parseInt(s, 16)`: like the decimal form but with an optional
`0x`/`0X` prefix and hexadecimal digits. -/
def jsParseIntHex (s : String) : JsNum :=
  let cs := s.data.dropWhile isJsWs
  let neg := cs.head? == some '-'
  let cs2 := if cs.head? == some '-' || cs.head? == some '+' then cs.tail else cs
  let cs3 := if cs2.take 2 == ['0', 'x'] || cs2.take 2 == ['0', 'X'] then cs2.drop 2 else cs2
  let ds := cs3.takeWhile isHexDigitChar
  if ds.isEmpty then .nan
  else
    match roundDouble (natOfHexChars ds) with
    | none => if neg then .negInf else .posInf
    | some m => .fin (if neg then -(m : Int) else (m : Int))

/-- JavaScript `Number.prototype.toString(16)` restricted to the values
`parseInt` can produce (integer doubles, `NaN`, infinities). -/
def JsNum.toString16 : JsNum → String
  | .nan => "NaN"
  | .posInf => "Infinity"
  | .negInf => "-Infinity"
  | .fin v => if v < 0 then "-" ++ hexOfNat v.natAbs else hexOfNat v.natAbs

/-- Embed a conversion result back into the value world (for record fields
such as `blockNumberDecimal`). -/
def JsNum.toJson : JsNum → Json
  | .nan => .nan
  | .posInf => .inf false
  | .negInf => .inf true
  | .fin v => .num v

/-- JavaScript `BigInt(s)` on a string (`StringToBigInt`): trimmed empty
string is 0; `0x`/`0o`/`0b` literals (no sign) or signed decimal digits;
anything else throws, modelled as `none`.  Exact, arbitrary precision. -/
def jsBigIntOfString (s : String) : Option Int :=
  let t1 := s.data.dropWhile isJsWs
  let t := (t1.reverse.dropWhile isJsWs).reverse
  if t.isEmpty then some 0
  else if t.take 2 == ['0', 'x'] || t.take 2 == ['0', 'X'] then
    let ds := t.drop 2
    if !ds.isEmpty && ds.all isHexDigitChar then some (natOfHexChars ds) else none
  else if t.take 2 == ['0', 'o'] || t.take 2 == ['0', 'O'] then
    let ds := t.drop 2
    if !ds.isEmpty && ds.all (fun c => '0' ≤ c && c ≤ '7') then some (natOfOctChars ds) else none
  else if t.take 2 == ['0', 'b'] || t.take 2 == ['0', 'B'] then
    let ds := t.drop 2
    if !ds.isEmpty && ds.all (fun c => c == '0' || c == '1') then some (natOfBinChars ds) else none
  else
    let neg := t.head? == some '-'
    let ds := if t.head? == some '-' || t.head? == some '+' then t.tail else t
    if !ds.isEmpty && ds.all Char.isDigit then
      some (if neg then -(natOfDecChars ds : Int) else (natOfDecChars ds : Int))
    else none

/-- JavaScript `BigInt(v)` on an arbitrary value: strings via
`StringToBigInt`, integer numbers and booleans convert, everything else
throws (`null`, `undefined`, `NaN`; arrays and objects coerce through their
string form, which no RPC result takes here, so they are folded into the
throwing case). -/
def jsBigIntOfJson : Json → Option Int
  | .str s => jsBigIntOfString s
  | .num n => some n
  | .bool b => some (if b then 1 else 0)
  | _ => none

/-- Signed decimal string (JavaScript `BigInt.prototype.toString()`). -/
def intDecString (v : Int) : String :=
  if v < 0 then "-" ++ decOfNat v.natAbs else decOfNat v.natAbs

/-- `isValidAddress` from the source: the regex test `^0x[a-fA-F0-9]{40}$`
(stated over the character list: a literal `0x` prefix followed by exactly 40
hex digits). -/
def isValidAddress (s : String) : Bool :=
  s.data.take 2 == ['0', 'x'] && (s.data.drop 2).length == 40 && (s.data.drop 2).all isHexDigitChar

/-- `isValidTxHash` from the source: the regex test `^0x[a-fA-F0-9]{64}$`.
The `getBlock` branch of `execute` applies the identical inline regex to the
block identifier. -/
def isValidTxHash (s : String) : Bool :=
  s.data.take 2 == ['0', 'x'] && (s.data.drop 2).length == 64 && (s.data.drop 2).all isHexDigitChar

/-- The regex test `^\d+$`: nonempty and all decimal digits. -/
def isAllDigits (s : String) : Bool :=
  !s.data.isEmpty && s.data.all Char.isDigit

/-- `toBlockTag` from the source: symbolic tags pass through; all-digit
strings go through `parseInt(block, 10).toString(16)` with a `0x` prefix;
everything else passes through unchanged. -/
def toBlockTag (block : String) : String :=
  if block == "latest" || block == "earliest" || block == "pending" ||
      block == "safe" || block == "finalized" then block
  else if isAllDigits block then "0x" ++ (jsParseIntDec block).toString16
  else block

/-- Quotient of two positive naturals rounded to the nearest integer,
ties to even. -/
def nearestEvenDiv (a b : Nat) : Nat :=
  let q := a / b
  let r := a % b
  if b < 2 * r then q + 1
  else if 2 * r < b then q
  else if q % 2 = 0 then q else q + 1

/-- The IEEE-754 double nearest to the positive rational `a / b`, returned as
a pair `(m, e)` of exact value `m * 2 ^ e`.  Faithful on the normal finite
range, which covers every quotient the node computes (`wei / 1e18`,
`wei / 1e9` with `wei` a finite double value). -/
def ratToDouble (a b : Nat) : Nat × Int :=
  let e1 : Int := (bitlen a : Int) - (bitlen b : Int) - 53
  let q1 := if 0 ≤ e1 then nearestEvenDiv a (b * 2 ^ e1.toNat)
            else nearestEvenDiv (a * 2 ^ (-e1).toNat) b
  if q1 ≤ 2 ^ 53 then (q1, e1)
  else
    let e2 := e1 + 1
    let q2 := if 0 ≤ e2 then nearestEvenDiv a (b * 2 ^ e2.toNat)
              else nearestEvenDiv (a * 2 ^ (-e2).toNat) b
    (q2, e2)

/-- Nearest integer to `m * 2 ^ e * 10 ^ f`, ties rounded up — the digit
count selection of `Number.prototype.toFixed(f)`. -/
def scaledHalfUp (m : Nat) (e : Int) (f : Nat) : Nat :=
  if 0 ≤ e then m * 2 ^ e.toNat * 10 ^ f
  else
    let num := m * 10 ^ f
    let den := 2 ^ (-e).toNat
    num / den + (if den ≤ num % den * 2 then 1 else 0)

/-- Left-pad a string with zeros to length `k`. -/
def padZeros (s : String) (k : Nat) : String :=
  String.mk (List.replicate (k - s.length) '0') ++ s

/-- Fixed-point rendering of `n / 10 ^ f` with exactly `f` fractional
digits. -/
def formatFixed (n : Nat) (f : Nat) : String :=
  decOfNat (n / 10 ^ f) ++ "." ++ padZeros (decOfNat (n % 10 ^ f)) f

/-- Number of decimal digits of a natural number (0 for 0). -/
def digitsLen (n : Nat) : Nat := (decChars n n).length

/-- Whether the integer `c` lies in the set of reals that round to the
double with integer value `N`, given the half-gaps `hlo` (below) and `hhi`
(above); the boundaries belong to the set exactly when the double's mantissa
is even (`inclusive`), per round-to-nearest, ties to even. -/
def candOk (N hlo hhi : Nat) (inclusive : Bool) (c : Nat) : Bool :=
  if c ≤ N then (N - c < hlo) || (inclusive && N - c == hlo)
  else (c - N < hhi) || (inclusive && c - N == hhi)

/-- Shortest-round-trip decimal search of ECMA-262 `Number::toString` for an
integer-valued double `N`: scan granularities `10 ^ p` from coarse to fine
and return the first `(s, p)` whose value `s * 10 ^ p` reads back as the
same double (the nearest multiple below or above `N`; when both qualify,
the closer one, ties to the larger).  Written with a bare `Nat.rec` like
`decChars` so the kernel evaluates it lazily. -/
def sfd (N hlo hhi : Nat) (inclusive : Bool) : Nat → Nat × Nat :=
  Nat.rec (motive := fun _ => Nat × Nat) (N, 0)
    (fun p ih =>
      let t := 10 ^ (p + 1)
      let s0 := N / t
      let r := N % t
      let ok1 := candOk N hlo hhi inclusive (s0 * t)
      let ok2 := candOk N hlo hhi inclusive ((s0 + 1) * t)
      if ok1 && ok2 then (if t - r ≤ r then (s0 + 1, p + 1) else (s0, p + 1))
      else if ok2 then (s0 + 1, p + 1)
      else if ok1 then (s0, p + 1)
      else ih)

/-- Render the shortest decimal `s * 10 ^ p` (value at or above 10^21, so
`n = digits(s) + p > 21`) in ECMA-262 exponential notation
`d.ddd…e+(n-1)`. -/
def jsExpForm (s p : Nat) : String :=
  match decChars s s with
  | [] => "0"
  | [c] => String.mk [c] ++ "e+" ++ decOfNat p
  | c :: rest => String.mk [c] ++ "." ++ String.mk rest ++ "e+" ++ decOfNat (rest.length + p)

/-- ECMA-262 `Number::toString` of a finite double of value `m * 2 ^ e` at
or above 10^21 (so `e ≥ 1` and the value is an integer): normalize the
mantissa, take the rounding interval (half-ulp above; half of the
lower gap, which narrows at an exact power of two), find the shortest
round-tripping decimal, and render it in exponential notation. -/
def jsToStringLargeDouble (m : Nat) (e : Nat) : String :=
  let mn := if m = 2 ^ 53 then 2 ^ 52 else m
  let en := if m = 2 ^ 53 then e + 1 else e
  let N := mn * 2 ^ en
  let hhi := 2 ^ (en - 1)
  let hlo := if mn = 2 ^ 52 then 2 ^ (en - 2) else 2 ^ (en - 1)
  let sp := sfd N hlo hhi (mn % 2 == 0) (digitsLen N)
  jsExpForm sp.1 sp.2

/-- Models `(Number(BigInt w) / 10 ^ k).toFixed(f)` for a nonnegative
bigint `w`: `w` rounds to a double, the division rounds again to a double,
and `toFixed` renders that double's exact value — with `f` fractional
digits (ties up) when the value is below 10^21, and otherwise, per the
ECMA-262 `toFixed` fallback, as `ToString` of the double, which at that
magnitude is shortest-round-trip exponential notation
(`jsToStringLargeDouble`). -/
def divPow10ToFixed (w k f : Nat) : String :=
  match roundDouble w with
  | none => "Infinity"
  | some 0 => formatFixed 0 f
  | some nd =>
    let me := ratToDouble nd (10 ^ k)
    if 0 ≤ me.2 ∧ 10 ^ 21 ≤ me.1 * 2 ^ me.2.toNat then
      jsToStringLargeDouble me.1 me.2.toNat
    else
      formatFixed (scaledHalfUp me.1 me.2 f) f

/-- Signed version of `divPow10ToFixed`. -/
def divPow10ToFixedInt (v : Int) (k f : Nat) : String :=
  if v < 0 then "-" ++ divPow10ToFixed v.natAbs k f else divPow10ToFixed v.natAbs k f

/-- Template-literal / `ToString` rendering of a value, used for `${...}`
interpolation and for the argument coercion of `parseInt`.  Non-empty arrays
would join their elements' strings with commas; no value reaching this
function in the modelled flows is a non-empty array, so arrays are rendered
by the empty-array form. -/
def Json.display : Json → String
  | .null => "null"
  | .undefined => "undefined"
  | .bool b => if b then "true" else "false"
  | .num n => intDecString n
  | .nan => "NaN"
  | .inf neg => if neg then "-Infinity" else "Infinity"
  | .str s => s
  | .arr _ => ""
  | .obj _ => "[object Object]"

/-- The per-item parameter values the host hands to `execute` through
`getNodeParameter` (string defaults as declared in the node's UI schema;
`getNodeParameter` fallback defaults coincide with them).  The source's
`from` and `to` fields are named `fromAddr` and `toAddr` because both
words are reserved tokens here. -/
structure ItemParams where
  operation : String
  address : String := ""
  block : String := "latest"
  blockIdentifier : String := "latest"
  fullTransactions : Bool := false
  txHash : String := ""
  fromAddr : String := ""
  toAddr : String := ""
  data : String := ""
  value : String := "0"
  rpcMethod : String := ""
  rpcParams : String := "[]"

/-- The credential object: `rpcEndpoint` (the `as string` cast of a missing
credential field behaves as the empty string for the truthiness check) and
the informational `network` label. -/
structure Credentials where
  rpcEndpoint : String
  network : Json

/-- A built JSON-RPC call: method name and ordered parameter list. -/
structure BuiltCall where
  method : String
  params : List Json

/-- The JSON-RPC envelope POSTed per item. -/
structure RpcRequest where
  jsonrpc : String := "2.0"
  method : String
  params : List Json
  id : Nat

/-- The errors `execute` can raise per item or per batch:
`operation` is a `NodeOperationError` (validation, unknown operation,
missing endpoint), `api` is the `NodeApiError` built from a JSON-RPC error
envelope (message value, description, code, item index), `http` is an error
thrown by the HTTP helper (transport failure), and `js` is any other thrown
JavaScript error (the `BigInt` conversion in response shaping). -/
inductive ExecError where
  | operation (message : String) (itemIndex : Option Nat)
  | api (message : Json) (description : String) (code : Json) (itemIndex : Nat)
  | http (message : String)
  | js (message : String)

/-- The `(error as Error).message` read by the fail-tolerant branch.
`NodeApiError`'s message resolution is modelled as the message value it was
constructed with (rendered as a string). -/
def ExecError.message : ExecError → String
  | .operation m _ => m
  | .api m _ _ _ => m.display
  | .http m => m
  | .js m => m

/-- Validation message for a malformed address (both uses in the source). -/
def invalidAddressMsg (address : String) : String :=
  "Invalid Ethereum address: " ++ address ++ ". Must be 42 characters starting with 0x"

/-- Validation message for a malformed transaction hash. -/
def invalidTxHashMsg (hash : String) : String :=
  "Invalid transaction hash: " ++ hash ++ ". Must be 66 characters starting with 0x"

/-- The `switch (operation)` of `execute`: validate this item's inputs and
build the JSON-RPC method and parameter list.  `parseJson` stands for the
host runtime's `JSON.parse`, which either returns a value or throws with a
message. -/
def buildRequest (parseJson : String → Except String Json) (i : Nat)
    (p : ItemParams) : Except ExecError BuiltCall :=
  if p.operation = "getBalance" then
    if isValidAddress p.address then
      .ok ⟨"eth_getBalance", [.str p.address, .str (toBlockTag p.block)]⟩
    else .error (.operation (invalidAddressMsg p.address) (some i))
  else if p.operation = "getBlockNumber" then
    .ok ⟨"eth_blockNumber", []⟩
  else if p.operation = "getBlock" then
    if isValidTxHash p.blockIdentifier then
      .ok ⟨"eth_getBlockByHash", [.str p.blockIdentifier, .bool p.fullTransactions]⟩
    else
      .ok ⟨"eth_getBlockByNumber", [.str (toBlockTag p.blockIdentifier), .bool p.fullTransactions]⟩
  else if p.operation = "getTransaction" then
    if isValidTxHash p.txHash then .ok ⟨"eth_getTransactionByHash", [.str p.txHash]⟩
    else .error (.operation (invalidTxHashMsg p.txHash) (some i))
  else if p.operation = "getTransactionReceipt" then
    if isValidTxHash p.txHash then .ok ⟨"eth_getTransactionReceipt", [.str p.txHash]⟩
    else .error (.operation (invalidTxHashMsg p.txHash) (some i))
  else if p.operation = "getTransactionCount" then
    if isValidAddress p.address then
      .ok ⟨"eth_getTransactionCount", [.str p.address, .str (toBlockTag p.block)]⟩
    else .error (.operation (invalidAddressMsg p.address) (some i))
  else if p.operation = "getCode" then
    if isValidAddress p.address then
      .ok ⟨"eth_getCode", [.str p.address, .str (toBlockTag p.block)]⟩
    else .error (.operation (invalidAddressMsg p.address) (some i))
  else if p.operation = "getGasPrice" then
    .ok ⟨"eth_gasPrice", []⟩
  else if p.operation = "estimateGas" then
    if ¬ isValidAddress p.toAddr then
      .error (.operation ("Invalid 'to' address: " ++ p.toAddr ++ ". Must be 42 characters starting with 0x") (some i))
    else if p.fromAddr ≠ "" ∧ ¬ isValidAddress p.fromAddr then
      .error (.operation ("Invalid 'from' address: " ++ p.fromAddr ++ ". Must be 42 characters starting with 0x") (some i))
    else
      .ok ⟨"eth_estimateGas",
        [.obj ([("to", .str p.toAddr)]
          ++ (if p.fromAddr ≠ "" then [("from", Json.str p.fromAddr)] else [])
          ++ (if p.data ≠ "" then [("data", Json.str p.data)] else [])
          ++ (if p.value ≠ "" ∧ p.value ≠ "0" then
                [("value", Json.str (if p.value.data.take 2 == ['0', 'x'] then p.value
                    else "0x" ++ (jsParseIntDec p.value).toString16))]
              else []))]⟩
  else if p.operation = "call" then
    if ¬ isValidAddress p.toAddr then
      .error (.operation ("Invalid 'to' address: " ++ p.toAddr ++ ". Must be 42 characters starting with 0x") (some i))
    else if p.fromAddr ≠ "" ∧ ¬ isValidAddress p.fromAddr then
      .error (.operation ("Invalid 'from' address: " ++ p.fromAddr ++ ". Must be 42 characters starting with 0x") (some i))
    else
      .ok ⟨"eth_call",
        [.obj ([("to", .str p.toAddr)]
          ++ (if p.fromAddr ≠ "" then [("from", Json.str p.fromAddr)] else [])
          ++ (if p.data ≠ "" then [("data", Json.str p.data)] else [])),
         .str (toBlockTag p.block)]⟩
  else if p.operation = "customRpc" then
    match parseJson p.rpcParams with
    | .error msg => .error (.operation ("Invalid JSON parameters: " ++ msg) (some i))
    | .ok (.arr xs) => .ok ⟨p.rpcMethod, xs⟩
    | .ok _ => .error (.operation ("Invalid JSON parameters: Parameters must be a JSON array") (some i))
  else
    .error (.operation ("Unknown operation: " ++ p.operation) (some i))

/-- The post-call `if` blocks of `execute` that append human-readable
conversions to the result record.  In the source these are successive
independent `if`s, but their conditions are mutually exclusive (each tests
`operation` against a different literal), so a chain is equivalent.  A
failed `BigInt` conversion throws, modelled as the `.error` branch. -/
def shapeFields (operation : String) (result : Json) : Except String (List (String × Json)) :=
  if operation = "getBalance" ∧ result.truthy then
    match jsBigIntOfJson result with
    | none => .error ("Cannot convert " ++ result.display ++ " to a BigInt")
    | some w => .ok [("balanceWei", .str (intDecString w)),
                     ("balanceEth", .str (divPow10ToFixedInt w 18 18))]
  else if operation = "getBlockNumber" ∧ result.truthy then
    .ok [("blockNumberDecimal", (jsParseIntHex result.display).toJson)]
  else if operation = "getGasPrice" ∧ result.truthy then
    match jsBigIntOfJson result with
    | none => .error ("Cannot convert " ++ result.display ++ " to a BigInt")
    | some w => .ok [("gasPriceWei", .str (intDecString w)),
                     ("gasPriceGwei", .str (divPow10ToFixedInt w 9 9))]
  else if operation = "getTransactionCount" ∧ result.truthy then
    .ok [("transactionCountDecimal", (jsParseIntHex result.display).toJson)]
  else if operation = "estimateGas" ∧ result.truthy then
    .ok [("gasEstimateDecimal", (jsParseIntHex result.display).toJson)]
  else .ok []

/-- One iteration of the `for` loop in `execute`, up to the catch handler:
build the request, POST it through the HTTP helper (`httpRequest` either
returns the parsed response body or throws a transport error), raise a
`NodeApiError` on a truthy `error` field, otherwise assemble the result
record. -/
def runItem (parseJson : String → Except String Json)
    (httpRequest : RpcRequest → Except String Json)
    (network : Json) (i : Nat) (p : ItemParams) :
    Except ExecError (List (String × Json)) :=
  match buildRequest parseJson i p with
  | .error e => .error e
  | .ok call =>
    match httpRequest ⟨"2.0", call.method, call.params, i + 1⟩ with
    | .error msg => .error (.http msg)
    | .ok response =>
      if (response.getField "error").truthy then
        .error (.api
          (if ((response.getField "error").getField "message").truthy then
            (response.getField "error").getField "message"
          else .str "RPC Error")
          ("RPC method " ++ call.method ++ " failed: "
            ++ ((response.getField "error").getField "message").display)
          ((response.getField "error").getField "code") i)
      else
        match shapeFields p.operation (response.getField "result") with
        | .error msg => .error (.js msg)
        | .ok extra =>
          .ok ([("result", response.getField "result"),
                ("method", .str call.method),
                ("network", network)] ++ extra)

/-- One element of `returnData`: the record's `json` object and its
`pairedItem` index. -/
structure OutRecord where
  json : List (String × Json)
  pairedItem : Nat

/-- The `for` loop of `execute` from item index `i` on: each item runs the
full pipeline; with `continueOnFail` a failed item contributes an
`{error: message}` record, otherwise the first error aborts the batch. -/
def execLoop (parseJson : String → Except String Json)
    (httpRequest : RpcRequest → Except String Json)
    (network : Json) (continueOnFail : Bool) :
    Nat → List ItemParams → Except ExecError (List OutRecord)
  | _, [] => .ok []
  | i, p :: rest =>
    match runItem parseJson httpRequest network i p with
    | .ok fields =>
      (execLoop parseJson httpRequest network continueOnFail (i + 1) rest).map
        (⟨fields, i⟩ :: ·)
    | .error e =>
      if continueOnFail then
        (execLoop parseJson httpRequest network continueOnFail (i + 1) rest).map
          (⟨[("error", Json.str e.message)], i⟩ :: ·)
      else .error e

/-- `execute`: check the credential endpoint (falsy, i.e. missing or empty,
aborts before any item), then process the batch sequentially. -/
def execute (credentials : Credentials) (continueOnFail : Bool)
    (parseJson : String → Except String Json)
    (httpRequest : RpcRequest → Except String Json)
    (items : List ItemParams) : Except ExecError (List OutRecord) :=
  if credentials.rpcEndpoint = "" then
    .error (.operation "RPC endpoint is required in credentials" none)
  else execLoop parseJson httpRequest credentials.network continueOnFail 0 items

/-- The record item `i` contributes to a fail-tolerant batch: its pipeline
record on success, an `{error}` record otherwise. -/
def itemRecord (parseJson : String → Except String Json)
    (httpRequest : RpcRequest → Except String Json)
    (network : Json) (i : Nat) (p : ItemParams) : OutRecord :=
  match runItem parseJson httpRequest network i p with
  | .ok fields => ⟨fields, i⟩
  | .error e => ⟨[("error", Json.str e.message)], i⟩

/-- The records of a fail-tolerant batch starting at item index `i`:
one `itemRecord` per item, in input order. -/
def recordsFrom (parseJson : String → Except String Json)
    (httpRequest : RpcRequest → Except String Json)
    (network : Json) : Nat → List ItemParams → List OutRecord
  | _, [] => []
  | i, p :: rest =>
    itemRecord parseJson httpRequest network i p
      :: recordsFrom parseJson httpRequest network (i + 1) rest

/-- Lowercase hexadecimal digit character (`[0-9a-f]`), the character class
JavaScript's `toString(16)` emits. -/
def isLowerHexDigit (c : Char) : Bool :=
  c.isDigit || ('a' ≤ c && c ≤ 'f')

/-! ### Lemmas about the digit-string machinery -/

theorem decChars_succ (fuel n : Nat) :
    decChars (fuel + 1) n = if n = 0 then [] else decChars fuel (n / 10) ++ [Char.ofNat (48 + n % 10)] :=
  rfl

theorem hexChars_succ (fuel n : Nat) :
    hexChars (fuel + 1) n = if n = 0 then [] else hexChars fuel (n / 16) ++ [hexDigitChar (n % 16)] :=
  rfl

theorem bitlenAux_succ (fuel n : Nat) :
    bitlenAux (fuel + 1) n = if n < 256 then bitlen8 n else bitlenAux fuel (n / 256) + 8 :=
  rfl

theorem decChars_zero : ∀ fuel, decChars fuel 0 = []
  | 0 => rfl
  | _ + 1 => rfl

theorem hexChars_zero : ∀ fuel, hexChars fuel 0 = []
  | 0 => rfl
  | _ + 1 => rfl

theorem natOfDecChars_append (l : List Char) (c : Char) :
    natOfDecChars (l ++ [c]) = natOfDecChars l * 10 + (c.toNat - 48) := by
  unfold natOfDecChars
  rw [List.foldl_append]
  rfl

theorem natOfHexChars_append (l : List Char) (c : Char) :
    natOfHexChars (l ++ [c]) = natOfHexChars l * 16 + hexVal c := by
  unfold natOfHexChars
  rw [List.foldl_append]
  rfl

theorem decDigitChar_val (k : Nat) (h : k < 10) : (Char.ofNat (48 + k)).toNat - 48 = k := by
  interval_cases k <;> decide

theorem hexDigitChar_val (k : Nat) (h : k < 16) : hexVal (hexDigitChar k) = k := by
  interval_cases k <;> decide

theorem natOfDecChars_decChars : ∀ fuel n, n < 10 ^ fuel → natOfDecChars (decChars fuel n) = n := by
  intro fuel
  induction fuel with
  | zero => intro n h; simp [pow_zero] at h; subst h; rfl
  | succ fuel ih =>
    intro n h
    by_cases h0 : n = 0
    · subst h0; simp [decChars_zero]; rfl
    · rw [decChars_succ, if_neg h0, natOfDecChars_append,
        ih (n / 10) (by omega), decDigitChar_val (n % 10) (by omega)]
      omega

theorem natOfHexChars_hexChars : ∀ fuel n, n < 16 ^ fuel → natOfHexChars (hexChars fuel n) = n := by
  intro fuel
  induction fuel with
  | zero => intro n h; simp [pow_zero] at h; subst h; rfl
  | succ fuel ih =>
    intro n h
    by_cases h0 : n = 0
    · subst h0; simp [hexChars_zero]; rfl
    · rw [hexChars_succ, if_neg h0, natOfHexChars_append,
        ih (n / 16) (by omega), hexDigitChar_val (n % 16) (by omega)]
      omega

theorem hexChars_all_lower : ∀ fuel n, (hexChars fuel n).all isLowerHexDigit = true := by
  intro fuel
  induction fuel with
  | zero => intro n; rfl
  | succ fuel ih =>
    intro n
    by_cases h0 : n = 0
    · subst h0; simp [hexChars_zero]
    · rw [hexChars_succ, if_neg h0, List.all_append, ih (n / 16), Bool.true_and]
      have hdig : ∀ k, k < 16 → List.all [hexDigitChar k] isLowerHexDigit = true := by
        intro k hk
        interval_cases k <;> decide
      exact hdig (n % 16) (by omega)

theorem hexChars_ne_nil (fuel n : Nat) (h0 : n ≠ 0) (hf : 0 < fuel) :
    hexChars fuel n ≠ [] := by
  cases fuel with
  | zero => omega
  | succ fuel => rw [hexChars_succ, if_neg h0]; simp

theorem hexChars_head_ne_zero :
    ∀ fuel n, n ≠ 0 → n < 16 ^ fuel → (hexChars fuel n).head? ≠ some '0' := by
  intro fuel
  induction fuel with
  | zero => intro n h0 h; omega
  | succ fuel ih =>
    intro n h0 h
    rw [hexChars_succ, if_neg h0]
    by_cases hsm : n < 16
    · have hq : n / 16 = 0 := Nat.div_eq_of_lt hsm
      rw [hq, hexChars_zero, List.nil_append, Nat.mod_eq_of_lt hsm]
      have hdig : ∀ k, 1 ≤ k → k < 16 → [hexDigitChar k].head? ≠ some '0' := by
        intro k h1 h2
        interval_cases k <;> decide
      exact hdig n (by omega) hsm
    · have hd0 : n / 16 ≠ 0 := by omega
      have hdlt : n / 16 < 16 ^ fuel := by omega
      have hfuel : 0 < fuel := by
        rcases Nat.eq_zero_or_pos fuel with hf | hf
        · subst hf; simp [pow_zero] at hdlt; omega
        · exact hf
      rw [List.head?_append]
      have hne := hexChars_ne_nil fuel (n / 16) hd0 hfuel
      cases hh : (hexChars fuel (n / 16)).head? with
      | none => exact absurd (List.head?_eq_none_iff.mp hh) hne
      | some c =>
        simp only [Option.or_some]
        have := ih (n / 16) hd0 hdlt
        rw [hh] at this
        exact this

theorem natOfHexChars_hexOfNat (n : Nat) : natOfHexChars (hexOfNat n).data = n := by
  by_cases h0 : n = 0
  · subst h0; decide
  · rw [hexOfNat, if_neg h0]
    exact natOfHexChars_hexChars n n (Nat.lt_pow_self (a := 16) (by norm_num) n)

theorem natOfDecChars_decOfNat (n : Nat) : natOfDecChars (decOfNat n).data = n := by
  by_cases h0 : n = 0
  · subst h0; decide
  · rw [decOfNat, if_neg h0]
    exact natOfDecChars_decChars n n (Nat.lt_pow_self (a := 10) (by norm_num) n)

theorem hexOfNat_all_lower (n : Nat) : (hexOfNat n).data.all isLowerHexDigit = true := by
  by_cases h0 : n = 0
  · subst h0; decide
  · rw [hexOfNat, if_neg h0]
    exact hexChars_all_lower n n

theorem hexOfNat_head_ne_zero (n : Nat) (h0 : n ≠ 0) :
    (hexOfNat n).data.head? ≠ some '0' := by
  rw [hexOfNat, if_neg h0]
  exact hexChars_head_ne_zero n n h0 (Nat.lt_pow_self (a := 16) (by norm_num) n)

theorem roundNat53_of_le (n : Nat) (h : n ≤ 2 ^ 53) : roundNat53 n = n := by
  rcases Nat.lt_or_ge n (2 ^ 53) with hlt | hge
  · have hdiv : n / 2 ^ 53 = 0 := Nat.div_eq_of_lt hlt
    rw [roundNat53]
    simp only [hdiv]
    rfl
  · have hn : n = 2 ^ 53 := by omega
    subst hn
    decide

theorem roundDouble_of_le (n : Nat) (h : n ≤ 2 ^ 53) : roundDouble n = some n := by
  rw [roundDouble, roundNat53_of_le n h]
  have hlt : ¬ ((2 : Nat) ^ 256) ^ 4 ≤ n := by
    intro hc
    have h2 : (2 : Nat) ^ 53 < (2 ^ 256) ^ 4 := by decide
    omega
  rw [if_neg hlt]

theorem some_beq_some (a b : Char) : (some a == some b) = (a == b) := rfl

theorem isJsWs_eq_false_of_isDigit (c : Char) (h : c.isDigit = true) : isJsWs c = false := by
  simp only [isJsWs, Bool.or_eq_false_iff, beq_eq_false_iff_ne]
  refine ⟨⟨⟨⟨⟨?_, ?_⟩, ?_⟩, ?_⟩, ?_⟩, ?_⟩ <;> (intro hc; subst hc; exact absurd h (by decide))

theorem takeWhile_eq_self_of_all (p : Char → Bool) :
    ∀ l : List Char, l.all p = true → l.takeWhile p = l := by
  intro l hl
  induction l with
  | nil => rfl
  | cons c t ih =>
    simp only [List.all_cons, Bool.and_eq_true] at hl
    simp [List.takeWhile_cons, hl.1, ih hl.2]

theorem jsParseIntDec_of_digits (s : String) (h : isAllDigits s = true) :
    jsParseIntDec s =
      match roundDouble (natOfDecChars s.data) with
      | none => JsNum.posInf
      | some m => JsNum.fin (m : Int) := by
  simp only [isAllDigits, Bool.and_eq_true, Bool.not_eq_true'] at h
  obtain ⟨h1, h2⟩ := h
  cases hd : s.data with
  | nil => rw [hd] at h1; simp at h1
  | cons c t =>
    rw [hd] at h2
    simp only [List.all_cons, Bool.and_eq_true] at h2
    have hcd : c.isDigit = true := h2.1
    have hdw : (c :: t).dropWhile isJsWs = c :: t := by
      simp [List.dropWhile_cons, isJsWs_eq_false_of_isDigit c hcd]
    have hminus : (c == '-') = false := by
      refine beq_eq_false_iff_ne.mpr ?_
      intro hc; subst hc; exact absurd hcd (by decide)
    have hplus : (c == '+') = false := by
      refine beq_eq_false_iff_ne.mpr ?_
      intro hc; subst hc; exact absurd hcd (by decide)
    have htw : (c :: t).takeWhile Char.isDigit = c :: t :=
      takeWhile_eq_self_of_all Char.isDigit (c :: t) (by simp [hcd, h2.2])
    simp only [jsParseIntDec, hd, hdw, List.head?_cons, some_beq_some, hminus, hplus,
      Bool.or_self, Bool.false_eq_true, if_false, htw, List.isEmpty_cons]

theorem toBlockTag_of_digits (s : String) (h : isAllDigits s = true) :
    toBlockTag s = "0x" ++ (jsParseIntDec s).toString16 := by
  have htag : (s == "latest" || s == "earliest" || s == "pending" ||
      s == "safe" || s == "finalized") = false := by
    simp only [Bool.or_eq_false_iff, beq_eq_false_iff_ne]
    refine ⟨⟨⟨⟨?_, ?_⟩, ?_⟩, ?_⟩, ?_⟩ <;> (intro hc; subst hc; exact absurd h (by decide))
  rw [toBlockTag, if_neg (by simp [htag]), if_pos h]

theorem toString16_of_digits (s : String) (h : isAllDigits s = true)
    (hle : natOfDecChars s.data ≤ 2 ^ 53) :
    (jsParseIntDec s).toString16 = hexOfNat (natOfDecChars s.data) := by
  rw [jsParseIntDec_of_digits s h, roundDouble_of_le _ hle]
  simp [JsNum.toString16]

/-! ### Lemmas about the batch loop -/

theorem execLoop_tolerant (parseJson : String → Except String Json)
    (httpRequest : RpcRequest → Except String Json) (network : Json) :
    ∀ (items : List ItemParams) (i : Nat),
      execLoop parseJson httpRequest network true i items =
        .ok (recordsFrom parseJson httpRequest network i items) := by
  intro items
  induction items with
  | nil => intro i; rfl
  | cons p rest ih =>
    intro i
    cases hri : runItem parseJson httpRequest network i p with
    | ok fields => simp [execLoop, recordsFrom, itemRecord, hri, ih (i + 1), Except.map]
    | error e => simp [execLoop, recordsFrom, itemRecord, hri, ih (i + 1), Except.map]

theorem recordsFrom_length (parseJson : String → Except String Json)
    (httpRequest : RpcRequest → Except String Json) (network : Json) :
    ∀ (items : List ItemParams) (i : Nat),
      (recordsFrom parseJson httpRequest network i items).length = items.length := by
  intro items
  induction items with
  | nil => intro i; rfl
  | cons p rest ih => intro i; simp [recordsFrom, ih (i + 1)]

theorem recordsFrom_getElem? (parseJson : String → Except String Json)
    (httpRequest : RpcRequest → Except String Json) (network : Json) :
    ∀ (items : List ItemParams) (i j : Nat),
      (recordsFrom parseJson httpRequest network i items)[j]? =
        (items[j]?).map (fun p => itemRecord parseJson httpRequest network (i + j) p) := by
  intro items
  induction items with
  | nil => intro i j; simp [recordsFrom]
  | cons p rest ih =>
    intro i j
    cases j with
    | zero => simp [recordsFrom]
    | succ j =>
      simp only [recordsFrom, List.getElem?_cons_succ, ih (i + 1) j]
      have harith : i + 1 + j = i + (j + 1) := by omega
      rw [harith]

theorem execLoop_strict_append (parseJson : String → Except String Json)
    (httpRequest : RpcRequest → Except String Json) (network : Json)
    (p : ItemParams) (e : ExecError) :
    ∀ (pre : List ItemParams) (i : Nat),
      (∀ j (hj : j < pre.length), ∃ fields,
        runItem parseJson httpRequest network (i + j) (pre.get ⟨j, hj⟩) = .ok fields) →
      runItem parseJson httpRequest network (i + pre.length) p = .error e →
      ∀ rest, execLoop parseJson httpRequest network false i (pre ++ p :: rest) = .error e := by
  intro pre
  induction pre with
  | nil =>
    intro i hpre hfail rest
    have hf : runItem parseJson httpRequest network i p = .error e := by simpa using hfail
    simp [execLoop, hf]
  | cons q pre ih =>
    intro i hpre hfail rest
    obtain ⟨fq, hfq⟩ : ∃ fields, runItem parseJson httpRequest network i q = .ok fields := by
      have h0 := hpre 0 (by simp)
      simpa using h0
    have hpre2 : ∀ j (hj : j < pre.length), ∃ fields,
        runItem parseJson httpRequest network (i + 1 + j) (pre.get ⟨j, hj⟩) = .ok fields := by
      intro j hj
      have h := hpre (j + 1) (by simpa using Nat.succ_lt_succ hj)
      have harith : i + (j + 1) = i + 1 + j := by omega
      rw [harith] at h
      simpa using h
    have hfail2 : runItem parseJson httpRequest network (i + 1 + pre.length) p = .error e := by
      have harith : i + 1 + pre.length = i + (q :: pre).length := by simp; omega
      rw [harith]
      exact hfail
    have hrec := ih (i + 1) hpre2 hfail2 rest
    simp [execLoop, hfq, hrec, Except.map]

/-! ### Claim theorems -/

/-- C10: if the credential's `rpcEndpoint` is missing or empty, `execute`
fails with the configuration error before processing any item and before any
network call (the result does not depend on the items, the HTTP helper, or
the failure-tolerance flag, which therefore cannot convert the failure into
per-item `{error}` records). -/
theorem missingEndpoint_failsWholeBatch (network : Json) (continueOnFail : Bool)
    (parseJson : String → Except String Json)
    (httpRequest : RpcRequest → Except String Json) (items : List ItemParams) :
    execute ⟨"", network⟩ continueOnFail parseJson httpRequest items =
      .error (.operation "RPC endpoint is required in credentials" none) := by
  rfl

/-- C3, counterexample: `toBlockTag` on the all-digit string
`"9007199254740993"` (the value 2^53 + 1) does not return that number's
hexadecimal encoding `0x20000000000001`: JavaScript's `parseInt` rounds the
value to the nearest double, 2^53, so the code returns `0x20000000000000`. -/
theorem toBlockTag_roundingCounterexample :
    isAllDigits "9007199254740993" = true
    ∧ toBlockTag "9007199254740993" = "0x20000000000000"
    ∧ "0x" ++ hexOfNat (natOfDecChars "9007199254740993".data) = "0x20000000000001"
    ∧ toBlockTag "9007199254740993" ≠ "0x" ++ hexOfNat (natOfDecChars "9007199254740993".data) := by
  exact ⟨by decide, by decide, by decide, by decide⟩

/-- C3 (amended): `normalizeBlockTag` (`toBlockTag`) is total (it is a plain
function and returns a value on every string); each of the five symbolic tags
is returned unchanged; a string of decimal digits *whose value is at most
2^53* is mapped to exactly that number's hexadecimal encoding prefixed with
`0x`, with lowercase digits and no leading zeros (witnessed by the value
round-trip, the digit character class, and the head digit); every other
string is returned unchanged.  Digit strings above 2^53 are first rounded to
a double by `parseInt`, see `toBlockTag_roundingCounterexample`. -/
theorem toBlockTag_spec (s : String) :
    ((s = "latest" ∨ s = "earliest" ∨ s = "pending" ∨ s = "safe" ∨ s = "finalized") →
      toBlockTag s = s)
    ∧ (isAllDigits s = true → natOfDecChars s.data ≤ 2 ^ 53 →
        toBlockTag s = "0x" ++ hexOfNat (natOfDecChars s.data)
        ∧ natOfHexChars (hexOfNat (natOfDecChars s.data)).data = natOfDecChars s.data
        ∧ (hexOfNat (natOfDecChars s.data)).data.all isLowerHexDigit = true
        ∧ (natOfDecChars s.data ≠ 0 →
            (hexOfNat (natOfDecChars s.data)).data.head? ≠ some '0'))
    ∧ ((¬ (s = "latest" ∨ s = "earliest" ∨ s = "pending" ∨ s = "safe" ∨ s = "finalized")) →
        isAllDigits s = false → toBlockTag s = s) := by
  refine ⟨?_, ?_, ?_⟩
  · intro h
    rcases h with rfl | rfl | rfl | rfl | rfl <;> decide
  · intro hd hle
    refine ⟨?_, natOfHexChars_hexOfNat _, hexOfNat_all_lower _,
      fun h0 => hexOfNat_head_ne_zero _ h0⟩
    rw [toBlockTag_of_digits s hd, toString16_of_digits s hd hle]
  · intro hns hnd
    rw [toBlockTag]
    rw [if_neg ?_]
    · rw [hnd]
      simp
    · intro hc
      simp only [Bool.or_eq_true, beq_iff_eq] at hc
      exact hns (by tauto)

/-- Witness for C3: the three spec examples — `"latest"` passes through,
`"12"` becomes `"0xc"`, and `"0xabc"` passes through unchanged. -/
theorem toBlockTag_spec_witness :
    toBlockTag "latest" = "latest"
    ∧ toBlockTag "12" = "0xc"
    ∧ toBlockTag "0xabc" = "0xabc" := by
  refine ⟨(toBlockTag_spec "latest").1 (Or.inl rfl), ?_, ?_⟩
  · have h := ((toBlockTag_spec "12").2.1 (by decide) (by decide)).1
    rw [h]
    decide
  · exact (toBlockTag_spec "0xabc").2.2 (by decide) (by decide)

/-- C5: for operation `getBlock` the built request is `eth_getBlockByHash`
with the identifier passed through unmodified exactly when the identifier
matches the 64-hex-digit `0x`-prefixed shape (the inline regex, identical to
`isValidTxHash`); otherwise it is `eth_getBlockByNumber` with the identifier
normalized by `toBlockTag`; in both cases the discriminator is syntactic and
the branch always succeeds (no validation failure). -/
theorem getBlock_discriminator (parseJson : String → Except String Json)
    (i : Nat) (p : ItemParams) (hop : p.operation = "getBlock") :
    (isValidTxHash p.blockIdentifier = true →
      buildRequest parseJson i p =
        .ok ⟨"eth_getBlockByHash", [.str p.blockIdentifier, .bool p.fullTransactions]⟩)
    ∧ (isValidTxHash p.blockIdentifier = false →
      buildRequest parseJson i p =
        .ok ⟨"eth_getBlockByNumber", [.str (toBlockTag p.blockIdentifier), .bool p.fullTransactions]⟩)
    ∧ ∃ call, buildRequest parseJson i p = .ok call := by
  have h1 : isValidTxHash p.blockIdentifier = true →
      buildRequest parseJson i p =
        .ok ⟨"eth_getBlockByHash", [.str p.blockIdentifier, .bool p.fullTransactions]⟩ := by
    intro hh
    simp [buildRequest, hop, hh]
  have h2 : isValidTxHash p.blockIdentifier = false →
      buildRequest parseJson i p =
        .ok ⟨"eth_getBlockByNumber", [.str (toBlockTag p.blockIdentifier), .bool p.fullTransactions]⟩ := by
    intro hh
    simp [buildRequest, hop, hh]
  refine ⟨h1, h2, ?_⟩
  cases hh : isValidTxHash p.blockIdentifier
  · exact ⟨_, h2 hh⟩
  · exact ⟨_, h1 hh⟩

/-- Witness for C5: a 64-hex-digit identifier selects `eth_getBlockByHash`
with the identifier unmodified; `"latest"` selects `eth_getBlockByNumber`
with params `["latest", false]`. -/
theorem getBlock_discriminator_witness :
    buildRequest (fun _ => .error "unused") 0
      { operation := "getBlock",
        blockIdentifier := "0x1234567890abcdef1234567890abcdef1234567890abcdef1234567890abcdef" } =
      .ok ⟨"eth_getBlockByHash",
        [.str "0x1234567890abcdef1234567890abcdef1234567890abcdef1234567890abcdef", .bool false]⟩
    ∧ buildRequest (fun _ => .error "unused") 0
      { operation := "getBlock", blockIdentifier := "latest" } =
      .ok ⟨"eth_getBlockByNumber", [.str "latest", .bool false]⟩ := by
  constructor
  · exact (getBlock_discriminator (fun _ => .error "unused") 0 _ rfl).1 (by decide)
  · exact ((getBlock_discriminator (fun _ => .error "unused") 0 _ rfl).2.1 (by decide)).trans rfl

/-- C8: for operation `customRpc` the parameters JSON text is parsed before
any network call.  If it parses to an array, the built request uses the
caller-supplied method string unvalidated and the parsed array as params; if
parsing throws, the item fails with an `Invalid JSON parameters` error
carrying the parse message; if it parses to a non-array, the item fails with
the `Parameters must be a JSON array` type error.  In both failure cases the
whole item fails identically for every HTTP helper, i.e. without any network
call. -/
theorem customRpc_paramsParsing (parseJson : String → Except String Json)
    (httpRequest : RpcRequest → Except String Json) (network : Json)
    (i : Nat) (p : ItemParams) (hop : p.operation = "customRpc") :
    (∀ xs, parseJson p.rpcParams = .ok (.arr xs) →
      buildRequest parseJson i p = .ok ⟨p.rpcMethod, xs⟩)
    ∧ (∀ msg, parseJson p.rpcParams = .error msg →
      buildRequest parseJson i p =
        .error (.operation ("Invalid JSON parameters: " ++ msg) (some i))
      ∧ runItem parseJson httpRequest network i p =
        .error (.operation ("Invalid JSON parameters: " ++ msg) (some i)))
    ∧ (∀ v, parseJson p.rpcParams = .ok v → (∀ xs, v ≠ .arr xs) →
      buildRequest parseJson i p =
        .error (.operation "Invalid JSON parameters: Parameters must be a JSON array" (some i))
      ∧ runItem parseJson httpRequest network i p =
        .error (.operation "Invalid JSON parameters: Parameters must be a JSON array" (some i))) := by
  refine ⟨?_, ?_, ?_⟩
  · intro xs hparse
    simp [buildRequest, hop, hparse]
  · intro msg hparse
    have hb : buildRequest parseJson i p =
        .error (.operation ("Invalid JSON parameters: " ++ msg) (some i)) := by
      simp [buildRequest, hop, hparse]
    exact ⟨hb, by simp [runItem, hb]⟩
  · intro v hparse hv
    have hb : buildRequest parseJson i p =
        .error (.operation "Invalid JSON parameters: Parameters must be a JSON array" (some i)) := by
      cases v with
      | arr xs => exact absurd rfl (hv xs)
      | null => simp [buildRequest, hop, hparse]
      | undefined => simp [buildRequest, hop, hparse]
      | bool b => simp [buildRequest, hop, hparse]
      | num n => simp [buildRequest, hop, hparse]
      | nan => simp [buildRequest, hop, hparse]
      | inf neg => simp [buildRequest, hop, hparse]
      | str s => simp [buildRequest, hop, hparse]
      | obj fields => simp [buildRequest, hop, hparse]
    exact ⟨hb, by simp [runItem, hb]⟩

/-- Witness for C8: the spec example — method `eth_getLogs` with parameter
text `[{"fromBlock":"latest"}]` parsed (by a parse oracle behaving like
`JSON.parse` on that input) to a one-object array yields exactly that request;
and a parse failure on malformed text yields the `Invalid JSON parameters`
error. -/
theorem customRpc_paramsParsing_witness :
    buildRequest
      (fun t => if t = "[\x7b\"fromBlock\":\"latest\"\x7d]"
        then .ok (.arr [.obj [("fromBlock", .str "latest")]])
        else .error "Unexpected token")
      0
      { operation := "customRpc", rpcMethod := "eth_getLogs",
        rpcParams := "[\x7b\"fromBlock\":\"latest\"\x7d]" } =
      .ok ⟨"eth_getLogs", [.obj [("fromBlock", .str "latest")]]⟩
    ∧ buildRequest (fun _ => .error "Unexpected token u in JSON at position 0") 0
      { operation := "customRpc", rpcMethod := "eth_getLogs", rpcParams := "undefined" } =
      .error (.operation "Invalid JSON parameters: Unexpected token u in JSON at position 0" (some 0)) := by
  constructor
  · exact (customRpc_paramsParsing _ (fun _ => .error "unused") .null 0 _ rfl).1
      [.obj [("fromBlock", .str "latest")]] (by simp)
  · exact ((customRpc_paramsParsing _ (fun _ => .error "unused") .null 0 _ rfl).2.1
      "Unexpected token u in JSON at position 0" rfl).1

/-- C1: whenever the HTTP helper returns a response whose `error` field is
truthy (non-null, non-empty), the item fails with the `NodeApiError` built
from that envelope — carrying the remote message (or the `RPC Error`
fallback), a description naming the local JSON-RPC method, and the remote
code — and never produces a success record, regardless of the transport
having succeeded. -/
theorem rpcError_neverSuccess (parseJson : String → Except String Json)
    (httpRequest : RpcRequest → Except String Json) (network : Json) (i : Nat)
    (p : ItemParams) (call : BuiltCall) (response : Json)
    (hbuild : buildRequest parseJson i p = .ok call)
    (hresp : httpRequest ⟨"2.0", call.method, call.params, i + 1⟩ = .ok response)
    (herr : (response.getField "error").truthy = true) :
    runItem parseJson httpRequest network i p =
      .error (.api
        (if ((response.getField "error").getField "message").truthy then
          (response.getField "error").getField "message"
        else .str "RPC Error")
        ("RPC method " ++ call.method ++ " failed: "
          ++ ((response.getField "error").getField "message").display)
        ((response.getField "error").getField "code") i)
    ∧ ∀ fields, runItem parseJson httpRequest network i p ≠ .ok fields := by
  obtain ⟨m, ps⟩ := call
  have hmain : runItem parseJson httpRequest network i p =
      .error (.api
        (if ((response.getField "error").getField "message").truthy then
          (response.getField "error").getField "message"
        else .str "RPC Error")
        ("RPC method " ++ m ++ " failed: "
          ++ ((response.getField "error").getField "message").display)
        ((response.getField "error").getField "code") i) := by
    simp only [runItem, hbuild, hresp, herr, if_true]
  refine ⟨hmain, ?_⟩
  intro fields hcontra
  rw [hmain] at hcontra
  exact Except.noConfusion hcontra

/-- Witness for C1: a concrete batch item whose call returns HTTP success
with a JSON-RPC error envelope `{code: 3, message: "execution reverted"}`
fails with the corresponding `NodeApiError` naming `eth_blockNumber`. -/
theorem rpcError_neverSuccess_witness :
    runItem (fun _ => .error "unused")
      (fun _ => .ok (.obj [("error", .obj [("message", .str "execution reverted"), ("code", .num 3)])]))
      (.str "ethereum-mainnet") 0 { operation := "getBlockNumber" } =
      .error (.api (.str "execution reverted")
        "RPC method eth_blockNumber failed: execution reverted" (.num 3) 0) := by
  have h := (rpcError_neverSuccess (fun _ => .error "unused")
    (fun _ => .ok (.obj [("error", .obj [("message", .str "execution reverted"), ("code", .num 3)])]))
    (.str "ethereum-mainnet") 0 { operation := "getBlockNumber" }
    ⟨"eth_blockNumber", []⟩
    (.obj [("error", .obj [("message", .str "execution reverted"), ("code", .num 3)])])
    rfl rfl rfl).1
  exact h.trans rfl

/-- C2: with failure tolerance enabled (and a configured endpoint), a batch
of n items always succeeds with exactly one output record per input item, in
input order: the record at position j is `itemRecord … j itemJ` — the
pipeline's success record when item j succeeds and an `{error: message}`
record when it fails at any stage — and it depends only on item j and its
index, so one item's failure cannot change any other item's record. -/
theorem failTolerant_batchShape (parseJson : String → Except String Json)
    (httpRequest : RpcRequest → Except String Json) (credentials : Credentials)
    (items : List ItemParams) (hep : credentials.rpcEndpoint ≠ "") :
    execute credentials true parseJson httpRequest items =
      .ok (recordsFrom parseJson httpRequest credentials.network 0 items)
    ∧ (recordsFrom parseJson httpRequest credentials.network 0 items).length = items.length
    ∧ ∀ j, (recordsFrom parseJson httpRequest credentials.network 0 items)[j]? =
        (items[j]?).map
          (fun p => itemRecord parseJson httpRequest credentials.network j p) := by
  refine ⟨?_, recordsFrom_length parseJson httpRequest credentials.network items 0, ?_⟩
  · rw [execute, if_neg hep]
    exact execLoop_tolerant parseJson httpRequest credentials.network items 0
  · intro j
    have h := recordsFrom_getElem? parseJson httpRequest credentials.network items 0 j
    simpa using h

/-- Witness for C2: the spec's 3-item batch — items 1 and 3 are valid
`getBlockNumber` calls, item 2 fails address validation — yields, in order, a
success record, an `{error}` record for item 2, and a success record. -/
theorem failTolerant_batchShape_witness :
    execute ⟨"https://node.example", .str "ethereum-mainnet"⟩ true
      (fun _ => .error "unused")
      (fun _ => .ok (.obj [("result", .str "0x10")]))
      [{ operation := "getBlockNumber" },
       { operation := "getBalance", address := "0xbad" },
       { operation := "getBlockNumber" }] =
      .ok
        [⟨[("result", .str "0x10"), ("method", .str "eth_blockNumber"),
           ("network", .str "ethereum-mainnet"), ("blockNumberDecimal", .num 16)], 0⟩,
         ⟨[("error", .str "Invalid Ethereum address: 0xbad. Must be 42 characters starting with 0x")], 1⟩,
         ⟨[("result", .str "0x10"), ("method", .str "eth_blockNumber"),
           ("network", .str "ethereum-mainnet"), ("blockNumberDecimal", .num 16)], 2⟩] := by
  have h := (failTolerant_batchShape (fun _ => .error "unused")
    (fun _ => .ok (.obj [("result", .str "0x10")]))
    ⟨"https://node.example", .str "ethereum-mainnet"⟩
    [{ operation := "getBlockNumber" },
     { operation := "getBalance", address := "0xbad" },
     { operation := "getBlockNumber" }] (by decide)).1
  exact h.trans rfl

/-- C7: without failure tolerance, the first failing item aborts the whole
batch: if every item before index `pre.length` succeeds and the item at that
index fails with error `e`, then `execute` propagates exactly `e` — for
every possible list of subsequent items, which are therefore never
validated, called, or emitted — and no (partial) output list is returned. -/
theorem strictMode_abortsBatch (parseJson : String → Except String Json)
    (httpRequest : RpcRequest → Except String Json) (credentials : Credentials)
    (pre : List ItemParams) (p : ItemParams) (e : ExecError)
    (hep : credentials.rpcEndpoint ≠ "")
    (hpre : ∀ j (hj : j < pre.length), ∃ fields,
      runItem parseJson httpRequest credentials.network j (pre.get ⟨j, hj⟩) = .ok fields)
    (hfail : runItem parseJson httpRequest credentials.network pre.length p = .error e) :
    ∀ rest, execute credentials false parseJson httpRequest (pre ++ p :: rest) = .error e := by
  intro rest
  rw [execute, if_neg hep]
  refine execLoop_strict_append parseJson httpRequest credentials.network p e pre 0 ?_ ?_ rest
  · intro j hj
    simpa using hpre j hj
  · simpa using hfail

/-- Witness for C7: a 3-item strict-mode batch where item 1 succeeds and
item 2 fails address validation aborts with exactly that validation error,
whatever item 3 is (here a `getGasPrice` call that is never reached). -/
theorem strictMode_abortsBatch_witness :
    execute ⟨"https://node.example", .str "ethereum-mainnet"⟩ false
      (fun _ => .error "unused")
      (fun _ => .ok (.obj [("result", .str "0x10")]))
      ([{ operation := "getBlockNumber" }] ++
        { operation := "getBalance", address := "0xbad" } :: [{ operation := "getGasPrice" }]) =
      .error (.operation
        "Invalid Ethereum address: 0xbad. Must be 42 characters starting with 0x" (some 1)) := by
  refine strictMode_abortsBatch (fun _ => .error "unused")
    (fun _ => .ok (.obj [("result", .str "0x10")]))
    ⟨"https://node.example", .str "ethereum-mainnet"⟩
    [{ operation := "getBlockNumber" }]
    { operation := "getBalance", address := "0xbad" }
    (.operation "Invalid Ethereum address: 0xbad. Must be 42 characters starting with 0x" (some 1))
    (by decide) ?_ rfl [{ operation := "getGasPrice" }]
  intro j hj
  have hj0 : j = 0 := by simpa using Nat.lt_one_iff.mp (by simpa using hj)
  subst hj0
  exact ⟨[("result", .str "0x10"), ("method", .str "eth_blockNumber"),
    ("network", .str "ethereum-mainnet"), ("blockNumberDecimal", .num 16)], rfl⟩

theorem shapeFields_falsy (operation : String) (result : Json)
    (h : result.truthy = false) : shapeFields operation result = .ok [] := by
  rw [shapeFields]
  simp [h]

/-- C9: for every operation (in particular the five with derived fields), if
the call succeeds with no RPC error but the result is absent (`undefined`),
`null`, or the empty string, the emitted record is still a success record
containing exactly `result`, `method`, and `network` — none of the derived
decimal/scaled fields are added. -/
theorem emptyResult_noDerivedFields (parseJson : String → Except String Json)
    (httpRequest : RpcRequest → Except String Json) (network : Json) (i : Nat)
    (p : ItemParams) (call : BuiltCall) (response : Json)
    (hbuild : buildRequest parseJson i p = .ok call)
    (hresp : httpRequest ⟨"2.0", call.method, call.params, i + 1⟩ = .ok response)
    (herr : (response.getField "error").truthy = false)
    (hres : response.getField "result" = .null ∨ response.getField "result" = .undefined ∨
        response.getField "result" = .str "") :
    runItem parseJson httpRequest network i p =
      .ok [("result", response.getField "result"), ("method", .str call.method),
           ("network", network)] := by
  obtain ⟨m, ps⟩ := call
  have htr : (response.getField "result").truthy = false := by
    rcases hres with h | h | h <;> rw [h] <;> rfl
  simp only [runItem, hbuild, hresp, herr, Bool.false_eq_true, if_false,
    shapeFields_falsy p.operation _ htr, List.append_nil]

/-- Witness for C9: a `getGasPrice` call whose response is `{result: null}`
yields a success record with exactly the three base fields and no
`gasPriceWei`/`gasPriceGwei`. -/
theorem emptyResult_noDerivedFields_witness :
    runItem (fun _ => .error "unused") (fun _ => .ok (.obj [("result", .null)]))
      (.str "ethereum-mainnet") 0 { operation := "getGasPrice" } =
      .ok [("result", .null), ("method", .str "eth_gasPrice"),
           ("network", .str "ethereum-mainnet")] := by
  have h := emptyResult_noDerivedFields (fun _ => .error "unused")
    (fun _ => .ok (.obj [("result", .null)])) (.str "ethereum-mainnet") 0
    { operation := "getGasPrice" } ⟨"eth_gasPrice", []⟩ (.obj [("result", .null)])
    rfl rfl rfl (Or.inl rfl)
  exact h.trans rfl

theorem digits_not_hexPrefix (s : String) (h : isAllDigits s = true) :
    (s.data.take 2 == ['0', 'x']) = false := by
  simp only [isAllDigits, Bool.and_eq_true, Bool.not_eq_true'] at h
  obtain ⟨h1, h2⟩ := h
  refine beq_eq_false_iff_ne.mpr ?_
  intro hc
  cases hd : s.data with
  | nil => rw [hd] at h1; simp at h1
  | cons c t =>
    rw [hd] at hc h2
    cases t with
    | nil => simp at hc
    | cons c2 t2 =>
      simp only [List.take, List.cons.injEq] at hc
      obtain ⟨-, hc2, -⟩ := hc
      subst hc2
      simp only [List.all_cons, Bool.and_eq_true] at h2
      exact absurd h2.2.1 (by decide)

/-- C4, counterexample: the claim as stated fails in two places.  With a
valid `to` address but a nonempty invalid `from` address no request is built
at all (the item fails `from` validation); and the value input `"00"`, which
is numerically zero, still produces a `value` field (`"0x0"`), because the
code only excludes the empty string and the literal `"0"`. -/
theorem estimateGas_counterexample :
    isValidAddress "0x1111111111111111111111111111111111111111" = true
    ∧ buildRequest (fun _ => .error "unused") 0
        { operation := "estimateGas",
          toAddr := "0x1111111111111111111111111111111111111111", fromAddr := "zz" } =
      .error (.operation "Invalid 'from' address: zz. Must be 42 characters starting with 0x" (some 0))
    ∧ buildRequest (fun _ => .error "unused") 1
        { operation := "estimateGas",
          toAddr := "0x1111111111111111111111111111111111111111", value := "00" } =
      .ok ⟨"eth_estimateGas",
        [.obj [("to", .str "0x1111111111111111111111111111111111111111"),
               ("value", .str "0x0")]]⟩
    ∧ natOfDecChars "00".data = 0 := by
  exact ⟨rfl, rfl, rfl, rfl⟩

/-- C4 (amended): for operation `estimateGas` with a valid `to` address and
a `from` input that is empty or a valid address, the built request is
`eth_estimateGas` with a single-parameter transaction object containing `to`
always; `from` and `data` exactly when those inputs are nonempty; and
`value` exactly when the value input is nonempty and not the literal `"0"`,
kept unchanged when it already starts with `0x` and otherwise converted by
`parseInt(·,10).toString(16)` with a `0x` prefix — which is the exact
hexadecimal encoding whenever the value input is a digit string of value at
most 2^53 (second conjunct). -/
theorem estimateGas_builder (parseJson : String → Except String Json) (i : Nat)
    (p : ItemParams) (hop : p.operation = "estimateGas")
    (hto : isValidAddress p.toAddr = true)
    (hfrom : p.fromAddr = "" ∨ isValidAddress p.fromAddr = true) :
    buildRequest parseJson i p = .ok ⟨"eth_estimateGas",
      [.obj ([("to", .str p.toAddr)]
        ++ (if p.fromAddr ≠ "" then [("from", Json.str p.fromAddr)] else [])
        ++ (if p.data ≠ "" then [("data", Json.str p.data)] else [])
        ++ (if p.value ≠ "" ∧ p.value ≠ "0" then
              [("value", Json.str (if p.value.data.take 2 == ['0', 'x'] then p.value
                  else "0x" ++ (jsParseIntDec p.value).toString16))]
            else []))]⟩
    ∧ (isAllDigits p.value = true → natOfDecChars p.value.data ≤ 2 ^ 53 →
        (if p.value.data.take 2 == ['0', 'x'] then p.value
         else "0x" ++ (jsParseIntDec p.value).toString16) =
          "0x" ++ hexOfNat (natOfDecChars p.value.data)) := by
  constructor
  · rcases hfrom with hf | hf
    · simp [buildRequest, hop, hto, hf]
    · simp [buildRequest, hop, hto, hf]
  · intro hv hle
    rw [digits_not_hexPrefix p.value hv]
    simp only [Bool.false_eq_true, if_false]
    rw [toString16_of_digits p.value hv hle]

/-- Witness for C4: `to` valid, `from` empty, `data` nonempty, decimal value
`"1000"` — the object has `to` and `data`, no `from`, and `value` `"0x3e8"`. -/
theorem estimateGas_builder_witness :
    buildRequest (fun _ => .error "unused") 0
      { operation := "estimateGas",
        toAddr := "0x1111111111111111111111111111111111111111",
        data := "0xabcd", value := "1000" } =
      .ok ⟨"eth_estimateGas",
        [.obj [("to", .str "0x1111111111111111111111111111111111111111"),
               ("data", .str "0xabcd"), ("value", .str "0x3e8")]]⟩ := by
  have h := (estimateGas_builder (fun _ => .error "unused") 0
    { operation := "estimateGas",
      toAddr := "0x1111111111111111111111111111111111111111",
      data := "0xabcd", value := "1000" } rfl (by decide) (Or.inl rfl)).1
  exact h.trans rfl

theorem decChars_length_le : ∀ fuel n k, n < 10 ^ k → (decChars fuel n).length ≤ k := by
  intro fuel
  induction fuel with
  | zero =>
    intro n k h
    have hz : decChars 0 n = [] := rfl
    rw [hz]
    simp
  | succ fuel ih =>
    intro n k h
    by_cases h0 : n = 0
    · subst h0; rw [decChars_zero]; simp
    · rw [decChars_succ, if_neg h0, List.length_append]
      cases k with
      | zero => exact absurd (by omega) h0
      | succ k =>
        have h1 := ih (n / 10) k (by omega)
        simp only [List.length_cons, List.length_nil]
        omega

theorem padZeros_length (s : String) (k : Nat) (h : s.length ≤ k) :
    (padZeros s k).length = k := by
  rw [padZeros, String.length_append]
  have hrep : (String.mk (List.replicate (k - s.length) '0')).length = k - s.length := by
    show (List.replicate (k - s.length) '0').length = k - s.length
    exact List.length_replicate _ _
  omega

theorem decOfNat_length_le (n k : Nat) (h1 : 1 ≤ k) (h : n < 10 ^ k) :
    (decOfNat n).length ≤ k := by
  by_cases h0 : n = 0
  · subst h0
    rw [decOfNat]
    simpa using h1
  · rw [decOfNat, if_neg h0]
    have hd := decChars_length_le n n k h
    simpa [String.length] using hd

theorem formatFixed_fracDigits (n f : Nat) (hf : 1 ≤ f) :
    ∃ ip fp, formatFixed n f = ip ++ "." ++ fp ∧ fp.length = f := by
  refine ⟨decOfNat (n / 10 ^ f), padZeros (decOfNat (n % 10 ^ f)) f, rfl, ?_⟩
  exact padZeros_length _ f
    (decOfNat_length_le _ f hf (Nat.mod_lt n (by positivity)))

/-- C6, counterexample: the claim's universal "balanceEth is the integer
divided by 10^18 formatted with 18 fractional digits" fails for large
balances.  For the hex result `0xde0b6b3a764000000000000000000000000`
(2^80 · 10^18 wei, whose quotient by 10^18 is exactly the double 2^80 ≥
10^21) the program's `toFixed(18)` falls back to exponential `ToString` and
the emitted `balanceEth` is `"1.2089258196146292e+24"`, not the
18-fractional-digit rendering `"1208925819614629174706176.000000000000000000"`
of the exact quotient. -/
theorem getBalance_toFixed_counterexample :
    jsBigIntOfString "0xde0b6b3a764000000000000000000000000" =
      some ((2 ^ 98 * 5 ^ 18 : Nat) : Int)
    ∧ (2 ^ 98 * 5 ^ 18 : Nat) = 2 ^ 80 * 10 ^ 18
    ∧ runItem (fun _ => .error "unused")
        (fun _ => .ok (.obj [("result", .str "0xde0b6b3a764000000000000000000000000")]))
        (.str "ethereum-mainnet") 0
        { operation := "getBalance",
          address := "0x1111111111111111111111111111111111111111" } =
      .ok [("result", .str "0xde0b6b3a764000000000000000000000000"),
           ("method", .str "eth_getBalance"),
           ("network", .str "ethereum-mainnet"),
           ("balanceWei", .str "1208925819614629174706176000000000000000000"),
           ("balanceEth", .str "1.2089258196146292e+24")]
    ∧ decOfNat (2 ^ 80) ++ "." ++ "000000000000000000" =
        "1208925819614629174706176.000000000000000000"
    ∧ ("1.2089258196146292e+24" : String) ≠
        "1208925819614629174706176.000000000000000000" := by
  refine ⟨by decide, by decide, by rfl, by decide, by decide⟩

/-- C6 (amended): for operation `getBalance` with a successful nonempty
string result that `BigInt` decodes to the nonnegative integer `w`, the
emitted record is the success record whose `balanceWei` is the decimal
string of `w` — exact and arbitrary-precision, witnessed by the round-trip
in the second conjunct — and whose `balanceEth` is
`(Number(w) / 1e18).toFixed(18)` (`divPow10ToFixed`, the source's
double-precision division and ECMA `toFixed` modelled exactly): a string
with exactly 18 fractional digits whenever the double quotient stays below
10^21 (third conjunct), while at or above 10^21 `toFixed` falls back to
exponential `ToString`, see `getBalance_toFixed_counterexample`. -/
theorem getBalance_shaping (parseJson : String → Except String Json)
    (httpRequest : RpcRequest → Except String Json) (network : Json) (i : Nat)
    (p : ItemParams) (call : BuiltCall) (response : Json) (s : String) (w : Nat)
    (hop : p.operation = "getBalance")
    (hbuild : buildRequest parseJson i p = .ok call)
    (hresp : httpRequest ⟨"2.0", call.method, call.params, i + 1⟩ = .ok response)
    (herr : (response.getField "error").truthy = false)
    (hres : response.getField "result" = .str s) (hne : s ≠ "")
    (hw : jsBigIntOfString s = some (w : Int)) :
    runItem parseJson httpRequest network i p =
      .ok [("result", .str s), ("method", .str call.method), ("network", network),
           ("balanceWei", .str (decOfNat w)),
           ("balanceEth", .str (divPow10ToFixed w 18 18))]
    ∧ natOfDecChars (decOfNat w).data = w
    ∧ (∀ nd, roundDouble w = some nd → nd ≠ 0 →
        ¬ (0 ≤ (ratToDouble nd (10 ^ 18)).2 ∧
            10 ^ 21 ≤ (ratToDouble nd (10 ^ 18)).1 * 2 ^ (ratToDouble nd (10 ^ 18)).2.toNat) →
        ∃ ip fp, divPow10ToFixed w 18 18 = ip ++ "." ++ fp ∧ fp.length = 18) := by
  obtain ⟨m, ps⟩ := call
  have htr : (Json.str s).truthy = true := by
    simp [Json.truthy, hne]
  have hshape : shapeFields p.operation (Json.str s) =
      .ok [("balanceWei", .str (decOfNat w)),
           ("balanceEth", .str (divPow10ToFixed w 18 18))] := by
    rw [shapeFields, if_pos ⟨hop, htr⟩]
    simp only [jsBigIntOfJson, hw]
    have hwei : intDecString (w : Int) = decOfNat w := by
      rw [intDecString, if_neg (by omega)]
      simp
    have heth : divPow10ToFixedInt (w : Int) 18 18 = divPow10ToFixed w 18 18 := by
      rw [divPow10ToFixedInt, if_neg (by omega)]
      simp
    rw [hwei, heth]
  refine ⟨?_, natOfDecChars_decOfNat w, ?_⟩
  · simp only [runItem, hbuild, hresp, herr, Bool.false_eq_true, if_false, hres, hshape]
    rfl
  · intro nd hnd hnd0 hsmall
    cases nd with
    | zero => exact absurd rfl hnd0
    | succ j =>
      simp only [divPow10ToFixed, hnd]
      rw [if_neg hsmall]
      exact formatFixed_fracDigits _ 18 (by norm_num)

/-- Witness for C6: result `"0xde0b6b3a7640000"` (10^18 wei) yields
`balanceWei = "1000000000000000000"` and
`balanceEth = "1.000000000000000000"` — a string with exactly 18 fractional
digits, as the below-10^21 case of the theorem also guarantees. -/
theorem getBalance_shaping_witness :
    runItem (fun _ => .error "unused")
      (fun _ => .ok (.obj [("result", .str "0xde0b6b3a7640000")]))
      (.str "ethereum-mainnet") 0
      { operation := "getBalance",
        address := "0x1111111111111111111111111111111111111111" } =
      .ok [("result", .str "0xde0b6b3a7640000"), ("method", .str "eth_getBalance"),
           ("network", .str "ethereum-mainnet"),
           ("balanceWei", .str "1000000000000000000"),
           ("balanceEth", .str "1.000000000000000000")]
    ∧ ∃ ip fp, divPow10ToFixed 1000000000000000000 18 18 = ip ++ "." ++ fp
        ∧ fp.length = 18 := by
  have h := getBalance_shaping (fun _ => .error "unused")
    (fun _ => .ok (.obj [("result", .str "0xde0b6b3a7640000")]))
    (.str "ethereum-mainnet") 0
    { operation := "getBalance",
      address := "0x1111111111111111111111111111111111111111" }
    ⟨"eth_getBalance", [.str "0x1111111111111111111111111111111111111111", .str "latest"]⟩
    (.obj [("result", .str "0xde0b6b3a7640000")]) "0xde0b6b3a7640000"
    1000000000000000000 rfl rfl rfl rfl rfl (by decide) rfl
  exact ⟨h.1.trans rfl, h.2.2 1000000000000000000 rfl (by decide) (by decide)⟩

end QuicknodeRpc
